import Mathlib

/-!
Verification of the Coast FIRE decision engine (src/app/page.tsx).

The engine is a pure function over JavaScript numbers.  We model numbers as
exact rationals extended with the IEEE-754 special values `+Infinity`,
`-Infinity` and `NaN` (type `FP` below); finite arithmetic is modelled
exactly (binary rounding of doubles is out of scope), while the special
values propagate through the modelled operations with IEEE semantics,
which is what the engine's degenerate cases (`netWorth = 0`, `spend = 0`)
rely on.  The display-only `state`/`filing` fields take no part in any
computation and are omitted from the model.
-/

/-- A JavaScript number: a finite (exact) rational, `+Infinity`, `-Infinity`
or `NaN`. -/
inductive FP where
  | fin : ℚ → FP
  | inf : FP
  | ninf : FP
  | nan : FP
deriving DecidableEq

namespace FP

/-- IEEE negation. -/
def neg : FP → FP
  | fin q => fin (-q)
  | inf => ninf
  | ninf => inf
  | nan => nan

/-- IEEE addition (finite addition exact; `Infinity + -Infinity = NaN`). -/
def add : FP → FP → FP
  | nan, _ => nan
  | _, nan => nan
  | inf, ninf => nan
  | ninf, inf => nan
  | inf, _ => inf
  | _, inf => inf
  | ninf, _ => ninf
  | _, ninf => ninf
  | fin a, fin b => fin (a + b)

/-- IEEE subtraction. -/
def sub (a b : FP) : FP := add a (neg b)

/-- IEEE division.  Division of a nonzero finite number by (positive) zero
gives a signed infinity, `0 / 0 = NaN`. -/
def div : FP → FP → FP
  | nan, _ => nan
  | _, nan => nan
  | fin a, fin b =>
      if b ≠ 0 then fin (a / b)
      else if 0 < a then inf
      else if a < 0 then ninf
      else nan
  | fin _, inf => fin 0
  | fin _, ninf => fin 0
  | inf, fin b => if 0 ≤ b then inf else ninf
  | ninf, fin b => if 0 ≤ b then ninf else inf
  | inf, inf => nan
  | inf, ninf => nan
  | ninf, inf => nan
  | ninf, ninf => nan

/-- The JavaScript `<=` comparison: any comparison involving `NaN` is
false. -/
def le : FP → FP → Bool
  | nan, _ => false
  | _, nan => false
  | ninf, _ => true
  | _, inf => true
  | inf, _ => false
  | fin _, ninf => false
  | fin a, fin b => decide (a ≤ b)

/-- `Math.min` of two numbers: `NaN` if either argument is `NaN`. -/
def min (a b : FP) : FP :=
  if a = nan then nan else if b = nan then nan else if le a b then a else b

/-- `Math.max(0, v)`: `NaN` if `v` is `NaN`. -/
def max0 (a : FP) : FP :=
  if a = nan then nan else if le (fin 0) a then a else fin 0

/-- `Math.round`: round to the nearest integer, halves towards `+Infinity`. -/
def round : FP → FP
  | fin q => fin ((⌊q + 1/2⌋ : ℤ) : ℚ)
  | inf => inf
  | ninf => ninf
  | nan => nan

end FP

/-- The numeric inputs of the engine (the display-only `state` and `filing`
strings are not used in any computation). -/
structure Inputs where
  netWorth : ℚ
  salary : ℚ
  salaryTaxRate : ℚ
  investReturn : ℚ
  investTaxRate : ℚ
  spend : ℚ
  sideIncome : ℚ
  cashOnHand : ℚ

/-- `const TARGET_SALARY_VS_NW = 0.10`. -/
def TARGET_SALARY_VS_NW : ℚ := 1/10

/-- `const CASH_BUFFER_MONTHS = 6`. -/
def CASH_BUFFER_MONTHS : ℚ := 6

/-- `const CLOSE_BAND_FRACTION = 0.05`. -/
def CLOSE_BAND_FRACTION : ℚ := 1/20

/-- `afterTaxSalary = salary * (1 - salaryTaxRate)` (always finite). -/
def afterTaxSalary (i : Inputs) : ℚ := i.salary * (1 - i.salaryTaxRate)

/-- `salaryVsNW = netWorth > 0 ? afterTaxSalary / netWorth : Infinity`. -/
def salaryVsNW (i : Inputs) : FP :=
  if 0 < i.netWorth then FP.fin (afterTaxSalary i / i.netWorth) else FP.inf

/-- `afterTaxPortfolioReturn = netWorth * investReturn * (1 - investTaxRate)`. -/
def afterTaxPortfolioReturn (i : Inputs) : ℚ :=
  i.netWorth * i.investReturn * (1 - i.investTaxRate)

/-- The cash-buffer target `(spend / 12) * CASH_BUFFER_MONTHS`. -/
def bufferTarget (i : Inputs) : ℚ := i.spend / 12 * CASH_BUFFER_MONTHS

/-- `passRuleB = salaryVsNW <= TARGET_SALARY_VS_NW`. -/
def passRuleB (i : Inputs) : Bool :=
  FP.le (salaryVsNW i) (FP.fin TARGET_SALARY_VS_NW)

/-- `passRuleC = afterTaxPortfolioReturn + sideIncome >= spend`. -/
def passRuleC (i : Inputs) : Bool :=
  decide (i.spend ≤ afterTaxPortfolioReturn i + i.sideIncome)

/-- `passBuffer = cashOnHand >= (spend / 12) * CASH_BUFFER_MONTHS`. -/
def passBuffer (i : Inputs) : Bool := decide (bufferTarget i ≤ i.cashOnHand)

/-- `bGap = TARGET_SALARY_VS_NW - salaryVsNW`. -/
def bGap (i : Inputs) : FP :=
  FP.sub (FP.fin TARGET_SALARY_VS_NW) (salaryVsNW i)

/-- `cGap = (afterTaxPortfolioReturn + sideIncome - spend) / spend`. -/
def cGap (i : Inputs) : FP :=
  FP.div (FP.fin (afterTaxPortfolioReturn i + i.sideIncome - i.spend))
    (FP.fin i.spend)

/-- `bufferGap = (cashOnHand - target) / target`. -/
def bufferGap (i : Inputs) : FP :=
  FP.div (FP.fin (i.cashOnHand - bufferTarget i)) (FP.fin (bufferTarget i))

/-- `failingGaps = [passRuleB ? Infinity : bGap, ...]`. -/
def failingGaps (i : Inputs) : List FP :=
  [if passRuleB i then FP.inf else bGap i,
   if passRuleC i then FP.inf else cGap i,
   if passBuffer i then FP.inf else bufferGap i]

/-- `worstGap = Math.min(...failingGaps)` (`Math.min` starts from
`+Infinity` and propagates `NaN`). -/
def worstGap (i : Inputs) : FP := (failingGaps i).foldl FP.min FP.inf

/-- `isYes = passRuleB && passRuleC && passBuffer`. -/
def isYes (i : Inputs) : Bool := passRuleB i && passRuleC i && passBuffer i

/-- `isClose = !isYes && worstGap >= -CLOSE_BAND_FRACTION`. -/
def isClose (i : Inputs) : Bool :=
  !isYes i && FP.le (FP.fin (-CLOSE_BAND_FRACTION)) (worstGap i)

/-- The driver if-chain, abstracted over the three pass flags and the three
gap values it consults (applied to the engine's values in `driver`). -/
def driverCore (pB pC pQ : Bool) (gb gc gq : FP) : String :=
  if !pB && FP.le gb gc && FP.le gb gq then "Salary too large vs net worth"
  else if !pC && FP.le gc gb && FP.le gc gq then
    "Spending too high vs portfolio + side income"
  else if !pQ && FP.le gq gb && FP.le gq gc then "Insufficient cash buffer"
  else if pB && pC && pQ then "You’re good"
  else "Multiple factors"

/-- The top-driver computation of the source. -/
def driver (i : Inputs) : String :=
  driverCore (passRuleB i) (passRuleC i) (passBuffer i)
    (bGap i) (cGap i) (bufferGap i)

/-- `neededNWforB = afterTaxSalary / TARGET_SALARY_VS_NW`. -/
def neededNWforB (i : Inputs) : ℚ := afterTaxSalary i / TARGET_SALARY_VS_NW

/-- `deltaNW_B = Math.max(0, neededNWforB - netWorth)`. -/
def deltaNW_B (i : Inputs) : ℚ := max 0 (neededNWforB i - i.netWorth)

/-- `shortfallC = Math.max(0, spend - (afterTaxPortfolioReturn + sideIncome))`. -/
def shortfallC (i : Inputs) : ℚ :=
  max 0 (i.spend - (afterTaxPortfolioReturn i + i.sideIncome))

/-- `atRetPerDollar = investReturn * (1 - investTaxRate)`. -/
def atRetPerDollar (i : Inputs) : ℚ := i.investReturn * (1 - i.investTaxRate)

/-- `deltaNW_C = atRetPerDollar > 0 ? shortfallC / atRetPerDollar : Infinity`. -/
def deltaNW_C (i : Inputs) : FP :=
  if 0 < atRetPerDollar i then FP.fin (shortfallC i / atRetPerDollar i)
  else FP.inf

/-- `bufferShort = Math.max(0, target - cashOnHand)`. -/
def bufferShort (i : Inputs) : ℚ := max 0 (bufferTarget i - i.cashOnHand)

/-- The `deltas` candidate array: levers of the failing rules, in source
order. -/
def deltas (i : Inputs) : List (String × FP) :=
  (if passRuleB i then []
   else [("Grow net worth (Rule B)", FP.fin (deltaNW_B i))]) ++
  (if passRuleC i then []
   else [("Add side income", FP.fin (shortfallC i)),
         ("Cut spending", FP.fin (shortfallC i)),
         ("Grow net worth (Rule C)", deltaNW_C i)]) ++
  (if passBuffer i then []
   else [("Hold more cash", FP.fin (bufferShort i))])

/-- `deltas.reduce((a, b) => (a.value <= b.value ? a : b))`: JavaScript
`reduce` without a seed folds from the first element. -/
def reduceBest : String × FP → List (String × FP) → String × FP
  | a, [] => a
  | a, b :: rest => reduceBest (if FP.le a.2 b.2 then a else b) rest

/-- The selected `best` candidate (`none` when the candidate list is empty). -/
def bestLever (i : Inputs) : Option (String × FP) :=
  match deltas i with
  | [] => none
  | d :: ds => some (reduceBest d ds)

/-- `pretty(v) = "$" + currency(Math.max(0, Math.round(v)))` — the numeric
part of the displayed amount (the locale currency formatting is display
glue and out of scope). -/
def pretty (v : FP) : FP := FP.max0 (FP.round v)

/-- The next-step output: either the fixed coasting message
("You can coast.") for an empty candidate list, or the selected lever's
template (identified by its label) with the displayed, pretty-processed
amount. -/
inductive NextStep where
  | coastMsg : NextStep
  | step : String → FP → NextStep
deriving DecidableEq

/-- The nextStep computation of the source, with the templated sentence
abstracted to (selected label, displayed amount). -/
def nextStep (i : Inputs) : NextStep :=
  match deltas i with
  | [] => NextStep.coastMsg
  | d :: ds => NextStep.step (reduceBest d ds).1 (pretty (reduceBest d ds).2)

/-- `const returnScenarios = [0.08, 0.09, 0.10, 0.11, 0.12]`. -/
def returnScenarios : List ℚ := [8/100, 9/100, 10/100, 11/100, 12/100]

/-- The record returned by `verdictForR`. -/
structure ScenarioResult where
  r : ℚ
  yes : Bool
  close : Bool
  coverage : FP
deriving DecidableEq

/-- `verdictForR`: per-scenario verdict for a candidate return rate `r`,
translated clause by clause from the source. -/
def verdictForR (i : Inputs) (r : ℚ) : ScenarioResult :=
  let atRet : ℚ := i.netWorth * r * (1 - i.investTaxRate)
  let b : Bool := FP.le (salaryVsNW i) (FP.fin TARGET_SALARY_VS_NW)
  let c : Bool := decide (i.spend ≤ atRet + i.sideIncome)
  let buffer : Bool := passBuffer i
  let cGapR : FP :=
    FP.div (FP.fin (atRet + i.sideIncome - i.spend)) (FP.fin i.spend)
  let failing : List FP :=
    [if b then FP.inf
     else FP.sub (FP.fin TARGET_SALARY_VS_NW) (salaryVsNW i),
     if c then FP.inf else cGapR,
     if buffer then FP.inf else bufferGap i]
  let worst : FP := failing.foldl FP.min FP.inf
  let yes : Bool := b && c && buffer
  let close : Bool := !yes && FP.le (FP.fin (-CLOSE_BAND_FRACTION)) worst
  let coverage : FP := FP.div (FP.fin (atRet + i.sideIncome)) (FP.fin i.spend)
  { r := r, yes := yes, close := close, coverage := coverage }

/-- `sensitivity = returnScenarios.map(verdictForR)`. -/
def sensitivity (i : Inputs) : List ScenarioResult :=
  returnScenarios.map (verdictForR i)

/-- `verdict = isYes ? "YES" : isClose ? "CLOSE" : "NOT YET"`. -/
def verdict (i : Inputs) : String :=
  if isYes i then "YES" else if isClose i then "CLOSE" else "NOT YET"

/-- Specification-side selection (spec §4.1 step 3, for comparison with the
code): the (label, gap) pairs of the failing rules only, in evaluation
order Rule B, Rule C, Buffer. -/
def failingList (pB pC pQ : Bool) (gb gc gq : FP) : List (String × FP) :=
  (if pB then [] else [("Salary too large vs net worth", gb)]) ++
  (if pC then []
   else [("Spending too high vs portfolio + side income", gc)]) ++
  (if pQ then [] else [("Insufficient cash buffer", gq)])

/-- Specification-side driver: the first failing rule attaining the minimal
gap (first-listed tie-break), or the all-good label when nothing fails. -/
def driverSpecCore (pB pC pQ : Bool) (gb gc gq : FP) : String :=
  match failingList pB pC pQ gb gc gq with
  | [] => "You’re good"
  | d :: ds => (reduceBest d ds).1

/-- `driverSpecCore` applied to the engine's flags and gaps. -/
def driverSpec (i : Inputs) : String :=
  driverSpecCore (passRuleB i) (passRuleC i) (passBuffer i)
    (bGap i) (cGap i) (bufferGap i)

/-- Specification-side variant of the driver chain in which each passing
rule's gap is replaced by `+Infinity` before any comparison. -/
def driverInf (i : Inputs) : String :=
  driverCore (passRuleB i) (passRuleC i) (passBuffer i)
    (if passRuleB i then FP.inf else bGap i)
    (if passRuleC i then FP.inf else cGap i)
    (if passBuffer i then FP.inf else bufferGap i)

/-- Scenario example 1 of the spec (also the source's default inputs). -/
def scenarioOneInput : Inputs :=
  ⟨3000000, 480000, 1/4, 1/10, 1/5, 180000, 0, 60000⟩

/-- A configuration whose only failing rule (Buffer) has gap exactly
-0.05. -/
def closeBoundaryInput : Inputs := ⟨3000000, 0, 0, 1/10, 1/5, 180000, 0, 85500⟩

/-- A spend-positive configuration exercising C3's selection. -/
def c3WitnessInput : Inputs := ⟨2000000, 400000, 1/4, 1/10, 1/5, 100000, 0, 20000⟩

/-- A spend-positive configuration exercising C4. -/
def c4WitnessInput : Inputs := ⟨1000000, 200000, 0, 1/10, 0, 50000, 0, 10000⟩

/-- A degenerate spend = 0 input on which a passing rule's NaN gap changes
the driver selection. -/
def nanGapInput : Inputs := ⟨0, 2, 0, 0, 0, 0, 0, 0⟩

/-- A concrete zero-net-worth instance with spend ≠ 0. -/
def c5WitnessInput : Inputs := ⟨0, 1, 0, 0, 0, 180000, 0, 0⟩

/-- A degenerate netWorth = 0, spend = 0 input. -/
def c5Degenerate : Inputs := ⟨0, 1, 0, 0, 0, 0, 0, 0⟩

/-- A degenerate input with netWorth = 0 and spend = 0 but positive
side income. -/
def c6WitnessInput : Inputs := ⟨0, 100, 0, 1/10, 0, 0, 5, 0⟩

/-- A configuration where Rule B passes, for C7's witness. -/
def c7WitnessInput : Inputs := ⟨4000000, 480000, 1/4, 1/10, 1/5, 180000, 0, 90000⟩

/-- A configuration whose selected lever has fractional magnitude 0.4. -/
def c8CexInput : Inputs := ⟨100, 0, 0, 1/10, 0, 1, 0, 1/10⟩

/-- A configuration for C9's witness. -/
def c9WitnessInput : Inputs := ⟨1000000, 0, 0, 1/10, 0, 80000, 0, 40000⟩

/-- A configuration where all three rules fail, for C10's witness. -/
def c10WitnessInput : Inputs := ⟨100000, 50000, 0, 1/10, 0, 60000, 0, 10000⟩


namespace FP

theorem le_refl_of_ne_nan {a : FP} (h : a ≠ nan) : le a a = true := by
  cases a <;> simp [le] at h ⊢

theorem le_trans₁ {a b c : FP} (h1 : le a b = true) (h2 : le b c = true) :
    le a c = true := by
  cases a <;> cases b <;> cases c <;> simp_all [le]
  linarith

theorem le_total₁ {a b : FP} (ha : a ≠ nan) (hb : b ≠ nan)
    (h : le a b = false) : le b a = true := by
  cases a <;> cases b <;> simp_all [le]
  linarith

theorem not_nan_left {a b : FP} (h : le a b = true) : a ≠ nan := by
  cases a <;> simp_all [le]

theorem not_nan_right {a b : FP} (h : le a b = true) : b ≠ nan := by
  cases a <;> cases b <;> simp_all [le]

theorem min_inf_left (a : FP) : min inf a = a := by
  cases a <;> simp [min, le]

theorem min_fin_inf (a : ℚ) : min (fin a) inf = fin a := by
  simp [min, le]

theorem min_fin_fin (a b : ℚ) :
    min (fin a) (fin b) = if a ≤ b then fin a else fin b := by
  by_cases h : a ≤ b <;> simp [min, le, h]

theorem max0_fin (a : ℚ) : max0 (fin a) = if 0 ≤ a then fin a else fin 0 := by
  by_cases h : 0 ≤ a <;> simp [max0, le, h]

theorem round_fin (a : ℚ) : round (fin a) = fin ((⌊a + 1/2⌋ : ℤ) : ℚ) := rfl

theorem le_fin_fin (a b : ℚ) : le (fin a) (fin b) = decide (a ≤ b) := rfl

/-- A strictly negative value compares below, and never above, a
nonnegative value. -/
theorem fail_lt_pass {f p : FP} (hf : le f (fin 0) = true)
    (hfs : le (fin 0) f = false) (hp : le (fin 0) p = true) :
    le f p = true ∧ le p f = false := by
  refine ⟨le_trans₁ hf hp, ?_⟩
  cases hpf : le p f
  · rfl
  · exact absurd (le_trans₁ hp hpf) (by simp [hfs])

end FP

theorem reduceBest_mem (a : String × FP) (l : List (String × FP)) :
    reduceBest a l ∈ a :: l := by
  induction l generalizing a with
  | nil => simp [reduceBest]
  | cons b rest ih =>
      simp only [reduceBest]
      rcases List.mem_cons.mp (ih (if FP.le a.2 b.2 then a else b)) with h | h
      · rw [h]
        by_cases hab : FP.le a.2 b.2 = true
        · simp [hab]
        · simp [hab]
      · simp [List.mem_cons, h]

theorem reduceBest_le_all (a : String × FP) (l : List (String × FP))
    (h : ∀ x ∈ a :: l, x.2 ≠ FP.nan) :
    ∀ x ∈ a :: l, FP.le (reduceBest a l).2 x.2 = true := by
  induction l generalizing a with
  | nil =>
      intro x hx
      rcases List.mem_singleton.mp hx with rfl
      simpa [reduceBest] using FP.le_refl_of_ne_nan (h x (by simp))
  | cons b rest ih =>
      have ha : a.2 ≠ FP.nan := h a (by simp)
      have hb : b.2 ≠ FP.nan := h b (by simp)
      by_cases hab : FP.le a.2 b.2 = true
      · have hrest : ∀ x ∈ a :: rest, x.2 ≠ FP.nan := by
          intro x hx
          rcases List.mem_cons.mp hx with rfl | hx
          · exact ha
          · exact h x (by simp [hx])
        have hred : reduceBest a (b :: rest) = reduceBest a rest := by
          simp [reduceBest, hab]
        have key := ih a hrest
        have hma : FP.le (reduceBest a rest).2 a.2 = true := key a (by simp)
        intro x hx
        rw [hred]
        rcases List.mem_cons.mp hx with rfl | hx
        · exact hma
        rcases List.mem_cons.mp hx with rfl | hx
        · exact FP.le_trans₁ hma hab
        · exact key x (by simp [hx])
      · have hba : FP.le b.2 a.2 = true :=
          FP.le_total₁ ha hb (by simpa using hab)
        have hrest : ∀ x ∈ b :: rest, x.2 ≠ FP.nan := by
          intro x hx
          rcases List.mem_cons.mp hx with rfl | hx
          · exact hb
          · exact h x (by simp [hx])
        have hred : reduceBest a (b :: rest) = reduceBest b rest := by
          simp [reduceBest, hab]
        have key := ih b hrest
        have hmb : FP.le (reduceBest b rest).2 b.2 = true := key b (by simp)
        intro x hx
        rw [hred]
        rcases List.mem_cons.mp hx with rfl | hx
        · exact FP.le_trans₁ hmb hba
        rcases List.mem_cons.mp hx with rfl | hx
        · exact hmb
        · exact key x (by simp [hx])

theorem reduceBest_first (a : String × FP) (l : List (String × FP))
    (h : ∀ x ∈ a :: l, x.2 ≠ FP.nan) :
    ∃ pre post, a :: l = pre ++ (reduceBest a l) :: post ∧
      ∀ x ∈ pre, FP.le x.2 (reduceBest a l).2 = false := by
  induction l generalizing a with
  | nil => exact ⟨[], [], by simp [reduceBest], by simp⟩
  | cons b rest ih =>
      have ha : a.2 ≠ FP.nan := h a (by simp)
      have hb : b.2 ≠ FP.nan := h b (by simp)
      by_cases hab : FP.le a.2 b.2 = true
      · have hrest : ∀ x ∈ a :: rest, x.2 ≠ FP.nan := by
          intro x hx
          rcases List.mem_cons.mp hx with rfl | hx
          · exact ha
          · exact h x (by simp [hx])
        have hred : reduceBest a (b :: rest) = reduceBest a rest := by
          simp [reduceBest, hab]
        rw [hred]
        obtain ⟨pre', post', heq, hpre⟩ := ih a hrest
        rcases pre' with _ | ⟨p, pre''⟩
        · simp only [List.nil_append] at heq
          refine ⟨[], b :: rest, ?_, by simp⟩
          have h1 : a = reduceBest a rest := (List.cons_eq_cons.mp heq).1
          rw [List.nil_append, ← h1]
        · simp only [List.cons_append] at heq
          have h1 : a = p := (List.cons_eq_cons.mp heq).1
          have h2 : rest = pre'' ++ reduceBest a rest :: post' :=
            (List.cons_eq_cons.mp heq).2
          refine ⟨a :: b :: pre'', post', ?_, ?_⟩
          · rw [List.cons_append, List.cons_append, ← h2]
          · intro x hx
            rcases List.mem_cons.mp hx with rfl | hx
            · have hfa := hpre p (by simp)
              rwa [← h1] at hfa
            rcases List.mem_cons.mp hx with rfl | hx
            · cases hbm : FP.le x.2 (reduceBest a rest).2
              · rfl
              · have hcontra := FP.le_trans₁ hab hbm
                have hfa := hpre p (by simp)
                rw [← h1] at hfa
                simp [hfa] at hcontra
            · exact hpre x (by simp [hx])
      · have hrest : ∀ x ∈ b :: rest, x.2 ≠ FP.nan := by
          intro x hx
          rcases List.mem_cons.mp hx with rfl | hx
          · exact hb
          · exact h x (by simp [hx])
        have hred : reduceBest a (b :: rest) = reduceBest b rest := by
          simp [reduceBest, hab]
        rw [hred]
        obtain ⟨pre', post', heq, hpre⟩ := ih b hrest
        have hmb : FP.le (reduceBest b rest).2 b.2 = true :=
          reduceBest_le_all b rest hrest b (by simp)
        refine ⟨a :: pre', post', ?_, ?_⟩
        · rw [List.cons_append, ← heq]
        · intro x hx
          rcases List.mem_cons.mp hx with rfl | hx
          · cases ham : FP.le x.2 (reduceBest b rest).2
            · rfl
            · have hcontra := FP.le_trans₁ ham hmb
              simp [hcontra] at hab
          · exact hpre x hx

theorem driverCore_eq_spec (pB pC pQ : Bool) (gb gc gq : FP)
    (hBp : pB = true → FP.le (FP.fin 0) gb = true)
    (hBf : pB = false →
      FP.le gb (FP.fin 0) = true ∧ FP.le (FP.fin 0) gb = false)
    (hCp : pC = true → FP.le (FP.fin 0) gc = true)
    (hCf : pC = false →
      FP.le gc (FP.fin 0) = true ∧ FP.le (FP.fin 0) gc = false)
    (hQp : pQ = true → FP.le (FP.fin 0) gq = true)
    (hQf : pQ = false →
      FP.le gq (FP.fin 0) = true ∧ FP.le (FP.fin 0) gq = false) :
    driverCore pB pC pQ gb gc gq = driverSpecCore pB pC pQ gb gc gq := by
  cases pB <;> cases pC <;> cases pQ
  · -- all three rules fail
    obtain ⟨hb1, hb2⟩ := hBf rfl
    obtain ⟨hc1, hc2⟩ := hCf rfl
    obtain ⟨hq1, hq2⟩ := hQf rfl
    by_cases hbc : FP.le gb gc = true
    · by_cases hbq : FP.le gb gq = true
      · simp [driverCore, driverSpecCore, failingList, reduceBest, hbc, hbq]
      · have hbq' : FP.le gb gq = false := by simpa using hbq
        have hqb : FP.le gq gb = true :=
          FP.le_total₁ (FP.not_nan_left hb1) (FP.not_nan_left hq1) hbq'
        have hcq : FP.le gc gq = false := by
          cases hcq' : FP.le gc gq
          · rfl
          · exact absurd (FP.le_trans₁ hbc hcq') (by simp [hbq'])
        have hqc : FP.le gq gc = true := FP.le_trans₁ hqb hbc
        simp [driverCore, driverSpecCore, failingList, reduceBest,
          hbc, hbq', hcq, hqb, hqc]
    · have hbc' : FP.le gb gc = false := by simpa using hbc
      have hcb : FP.le gc gb = true :=
        FP.le_total₁ (FP.not_nan_left hb1) (FP.not_nan_left hc1) hbc'
      by_cases hcq : FP.le gc gq = true
      · simp [driverCore, driverSpecCore, failingList, reduceBest,
          hbc', hcb, hcq]
      · have hcq' : FP.le gc gq = false := by simpa using hcq
        have hqc : FP.le gq gc = true :=
          FP.le_total₁ (FP.not_nan_left hc1) (FP.not_nan_left hq1) hcq'
        have hqb : FP.le gq gb = true := FP.le_trans₁ hqc hcb
        simp [driverCore, driverSpecCore, failingList, reduceBest,
          hbc', hcq', hqc, hqb]
  · -- B, C fail; Buffer passes
    obtain ⟨hb1, hb2⟩ := hBf rfl
    obtain ⟨hc1, hc2⟩ := hCf rfl
    have hq0 := hQp rfl
    obtain ⟨hbq, _⟩ := FP.fail_lt_pass hb1 hb2 hq0
    obtain ⟨hcq, _⟩ := FP.fail_lt_pass hc1 hc2 hq0
    by_cases hbc : FP.le gb gc = true
    · simp [driverCore, driverSpecCore, failingList, reduceBest,
        hbc, hbq, hcq]
    · have hbc' : FP.le gb gc = false := by simpa using hbc
      have hcb : FP.le gc gb = true :=
        FP.le_total₁ (FP.not_nan_left hb1) (FP.not_nan_left hc1) hbc'
      simp [driverCore, driverSpecCore, failingList, reduceBest,
        hbc', hcb, hcq]
  · -- B, Buffer fail; C passes
    obtain ⟨hb1, hb2⟩ := hBf rfl
    have hc0 := hCp rfl
    obtain ⟨hq1, hq2⟩ := hQf rfl
    obtain ⟨hbc, _⟩ := FP.fail_lt_pass hb1 hb2 hc0
    obtain ⟨hqc, _⟩ := FP.fail_lt_pass hq1 hq2 hc0
    by_cases hbq : FP.le gb gq = true
    · simp [driverCore, driverSpecCore, failingList, reduceBest,
        hbc, hbq]
    · have hbq' : FP.le gb gq = false := by simpa using hbq
      have hqb : FP.le gq gb = true :=
        FP.le_total₁ (FP.not_nan_left hb1) (FP.not_nan_left hq1) hbq'
      simp [driverCore, driverSpecCore, failingList, reduceBest,
        hbq', hqb, hqc]
  · -- only B fails
    obtain ⟨hb1, hb2⟩ := hBf rfl
    obtain ⟨hbc, _⟩ := FP.fail_lt_pass hb1 hb2 (hCp rfl)
    obtain ⟨hbq, _⟩ := FP.fail_lt_pass hb1 hb2 (hQp rfl)
    simp [driverCore, driverSpecCore, failingList, reduceBest, hbc, hbq]
  · -- C, Buffer fail; B passes
    have hb0 := hBp rfl
    obtain ⟨hc1, hc2⟩ := hCf rfl
    obtain ⟨hq1, hq2⟩ := hQf rfl
    obtain ⟨hcb, _⟩ := FP.fail_lt_pass hc1 hc2 hb0
    obtain ⟨hqb, _⟩ := FP.fail_lt_pass hq1 hq2 hb0
    by_cases hcq : FP.le gc gq = true
    · simp [driverCore, driverSpecCore, failingList, reduceBest,
        hcb, hcq]
    · have hcq' : FP.le gc gq = false := by simpa using hcq
      have hqc : FP.le gq gc = true :=
        FP.le_total₁ (FP.not_nan_left hc1) (FP.not_nan_left hq1) hcq'
      simp [driverCore, driverSpecCore, failingList, reduceBest,
        hcq', hqb, hqc]
  · -- only C fails
    obtain ⟨hc1, hc2⟩ := hCf rfl
    obtain ⟨hcb, _⟩ := FP.fail_lt_pass hc1 hc2 (hBp rfl)
    obtain ⟨hcq, _⟩ := FP.fail_lt_pass hc1 hc2 (hQp rfl)
    simp [driverCore, driverSpecCore, failingList, reduceBest, hcb, hcq]
  · -- only Buffer fails
    obtain ⟨hq1, hq2⟩ := hQf rfl
    obtain ⟨hqb, _⟩ := FP.fail_lt_pass hq1 hq2 (hBp rfl)
    obtain ⟨hqc, _⟩ := FP.fail_lt_pass hq1 hq2 (hCp rfl)
    simp [driverCore, driverSpecCore, failingList, reduceBest, hqb, hqc]
  · -- nothing fails
    simp [driverCore, driverSpecCore, failingList]

theorem failingList_inf (pB pC pQ : Bool) (gb gc gq : FP) :
    failingList pB pC pQ (if pB then FP.inf else gb)
      (if pC then FP.inf else gc) (if pQ then FP.inf else gq) =
    failingList pB pC pQ gb gc gq := by
  cases pB <;> cases pC <;> cases pQ <;> simp [failingList]

theorem driverCore_inf (pB pC pQ : Bool) (gb gc gq : FP)
    (hBp : pB = true → FP.le (FP.fin 0) gb = true)
    (hBf : pB = false →
      FP.le gb (FP.fin 0) = true ∧ FP.le (FP.fin 0) gb = false)
    (hCp : pC = true → FP.le (FP.fin 0) gc = true)
    (hCf : pC = false →
      FP.le gc (FP.fin 0) = true ∧ FP.le (FP.fin 0) gc = false)
    (hQp : pQ = true → FP.le (FP.fin 0) gq = true)
    (hQf : pQ = false →
      FP.le gq (FP.fin 0) = true ∧ FP.le (FP.fin 0) gq = false) :
    driverCore pB pC pQ gb gc gq =
    driverCore pB pC pQ (if pB then FP.inf else gb)
      (if pC then FP.inf else gc) (if pQ then FP.inf else gq) := by
  have h1 := driverCore_eq_spec pB pC pQ gb gc gq hBp hBf hCp hCf hQp hQf
  have h2 := driverCore_eq_spec pB pC pQ (if pB then FP.inf else gb)
      (if pC then FP.inf else gc) (if pQ then FP.inf else gq)
      (fun h => by rw [h]; simp [FP.le])
      (fun h => by rw [h]; simpa using hBf h)
      (fun h => by rw [h]; simp [FP.le])
      (fun h => by rw [h]; simpa using hCf h)
      (fun h => by rw [h]; simp [FP.le])
      (fun h => by rw [h]; simpa using hQf h)
  rw [h1, h2]
  simp only [driverSpecCore, failingList_inf]

theorem bGap_pass {i : Inputs} (h : passRuleB i = true) :
    FP.le (FP.fin 0) (bGap i) = true := by
  by_cases hnw : 0 < i.netWorth
  · simp only [passRuleB, salaryVsNW, hnw, if_true, FP.le,
      decide_eq_true_eq] at h
    simp only [bGap, salaryVsNW, hnw, if_true, FP.sub, FP.neg, FP.add,
      FP.le, decide_eq_true_eq]
    linarith
  · simp [passRuleB, salaryVsNW, hnw, FP.le] at h

theorem bGap_fail {i : Inputs} (h : passRuleB i = false) :
    FP.le (bGap i) (FP.fin 0) = true ∧ FP.le (FP.fin 0) (bGap i) = false := by
  by_cases hnw : 0 < i.netWorth
  · simp only [passRuleB, salaryVsNW, hnw, if_true, FP.le,
      decide_eq_false_iff_not, not_le] at h
    simp only [bGap, salaryVsNW, hnw, if_true, FP.sub, FP.neg, FP.add,
      FP.le, decide_eq_true_eq, decide_eq_false_iff_not, not_le]
    constructor <;> linarith
  · simp [bGap, salaryVsNW, hnw, FP.sub, FP.neg, FP.add, FP.le]

theorem cGap_pass {i : Inputs} (hs : 0 < i.spend) (h : passRuleC i = true) :
    FP.le (FP.fin 0) (cGap i) = true := by
  have hne : i.spend ≠ 0 := ne_of_gt hs
  simp only [passRuleC, decide_eq_true_eq] at h
  simp only [cGap, FP.div, ne_eq, hne, not_false_eq_true, if_true, FP.le,
    decide_eq_true_eq]
  exact div_nonneg (by linarith) (le_of_lt hs)

theorem cGap_fail {i : Inputs} (hs : 0 < i.spend) (h : passRuleC i = false) :
    FP.le (cGap i) (FP.fin 0) = true ∧ FP.le (FP.fin 0) (cGap i) = false := by
  have hne : i.spend ≠ 0 := ne_of_gt hs
  simp only [passRuleC, decide_eq_false_iff_not, not_le] at h
  simp only [cGap, FP.div, ne_eq, hne, not_false_eq_true, if_true, FP.le,
    decide_eq_true_eq, decide_eq_false_iff_not, not_le]
  have hneg : afterTaxPortfolioReturn i + i.sideIncome - i.spend < 0 := by
    linarith
  constructor
  · exact le_of_lt (div_neg_of_neg_of_pos hneg hs)
  · exact div_neg_of_neg_of_pos hneg hs

theorem bufferTarget_pos {i : Inputs} (hs : 0 < i.spend) :
    0 < bufferTarget i := by
  have : bufferTarget i = i.spend / 2 := by
    unfold bufferTarget CASH_BUFFER_MONTHS
    ring
  rw [this]
  linarith

theorem bufferGap_pass {i : Inputs} (hs : 0 < i.spend)
    (h : passBuffer i = true) : FP.le (FP.fin 0) (bufferGap i) = true := by
  have hbt := bufferTarget_pos hs
  have hne : bufferTarget i ≠ 0 := ne_of_gt hbt
  simp only [passBuffer, decide_eq_true_eq] at h
  simp only [bufferGap, FP.div, ne_eq, hne, not_false_eq_true, if_true,
    FP.le, decide_eq_true_eq]
  exact div_nonneg (by linarith) (le_of_lt hbt)

theorem bufferGap_fail {i : Inputs} (hs : 0 < i.spend)
    (h : passBuffer i = false) :
    FP.le (bufferGap i) (FP.fin 0) = true ∧
      FP.le (FP.fin 0) (bufferGap i) = false := by
  have hbt := bufferTarget_pos hs
  have hne : bufferTarget i ≠ 0 := ne_of_gt hbt
  simp only [passBuffer, decide_eq_false_iff_not, not_le] at h
  simp only [bufferGap, FP.div, ne_eq, hne, not_false_eq_true, if_true,
    FP.le, decide_eq_true_eq, decide_eq_false_iff_not, not_le]
  have hneg : i.cashOnHand - bufferTarget i < 0 := by linarith
  constructor
  · exact le_of_lt (div_neg_of_neg_of_pos hneg hbt)
  · exact div_neg_of_neg_of_pos hneg hbt

theorem driver_eq_driverSpec {i : Inputs} (hs : 0 < i.spend) :
    driver i = driverSpec i :=
  driverCore_eq_spec _ _ _ _ _ _
    (fun h => bGap_pass h) (fun h => bGap_fail h)
    (fun h => cGap_pass hs h) (fun h => cGap_fail hs h)
    (fun h => bufferGap_pass hs h) (fun h => bufferGap_fail hs h)

theorem driver_eq_driverInf {i : Inputs} (hs : 0 < i.spend) :
    driver i = driverInf i :=
  driverCore_inf _ _ _ _ _ _
    (fun h => bGap_pass h) (fun h => bGap_fail h)
    (fun h => cGap_pass hs h) (fun h => cGap_fail hs h)
    (fun h => bufferGap_pass hs h) (fun h => bufferGap_fail hs h)



theorem deltaNW_C_not_nan (i : Inputs) : deltaNW_C i ≠ FP.nan := by
  unfold deltaNW_C
  split <;> simp

theorem mem_deltas_cases {i : Inputs} {x : String × FP} (hx : x ∈ deltas i) :
    (passRuleB i = false ∧
      x = ("Grow net worth (Rule B)", FP.fin (deltaNW_B i))) ∨
    (passRuleC i = false ∧
      (x = ("Add side income", FP.fin (shortfallC i)) ∨
       x = ("Cut spending", FP.fin (shortfallC i)) ∨
       x = ("Grow net worth (Rule C)", deltaNW_C i))) ∨
    (passBuffer i = false ∧
      x = ("Hold more cash", FP.fin (bufferShort i))) := by
  simp only [deltas, List.mem_append] at hx
  rcases hx with (hx | hx) | hx
  · cases hB : passRuleB i
    · rw [hB] at hx
      simp at hx
      exact Or.inl ⟨rfl, hx⟩
    · rw [hB] at hx
      simp at hx
  · cases hc : passRuleC i
    · rw [hc] at hx
      simp at hx
      exact Or.inr (Or.inl ⟨rfl, hx⟩)
    · rw [hc] at hx
      simp at hx
  · cases hq : passBuffer i
    · rw [hq] at hx
      simp at hx
      exact Or.inr (Or.inr ⟨rfl, hx⟩)
    · rw [hq] at hx
      simp at hx

theorem deltas_not_nan (i : Inputs) : ∀ x ∈ deltas i, x.2 ≠ FP.nan := by
  intro x hx
  rcases mem_deltas_cases hx with ⟨_, rfl⟩ | ⟨_, rfl | rfl | rfl⟩ | ⟨_, rfl⟩ <;>
    simp [deltaNW_C_not_nan i]

theorem mem_failingList {pB pC pQ : Bool} {gb gc gq : FP} {x : String × FP}
    (hx : x ∈ failingList pB pC pQ gb gc gq) :
    (pB = false ∧ x = ("Salary too large vs net worth", gb)) ∨
    (pC = false ∧ x = ("Spending too high vs portfolio + side income", gc)) ∨
    (pQ = false ∧ x = ("Insufficient cash buffer", gq)) := by
  simp only [failingList, List.mem_append] at hx
  rcases hx with (hx | hx) | hx
  · cases hB : pB
    · rw [hB] at hx
      simp at hx
      exact Or.inl ⟨rfl, hx⟩
    · rw [hB] at hx
      simp at hx
  · cases hc : pC
    · rw [hc] at hx
      simp at hx
      exact Or.inr (Or.inl ⟨rfl, hx⟩)
    · rw [hc] at hx
      simp at hx
  · cases hq : pQ
    · rw [hq] at hx
      simp at hx
      exact Or.inr (Or.inr ⟨rfl, hx⟩)
    · rw [hq] at hx
      simp at hx

theorem failingList_not_nan {i : Inputs} (hs : 0 < i.spend) :
    ∀ x ∈ failingList (passRuleB i) (passRuleC i) (passBuffer i)
        (bGap i) (cGap i) (bufferGap i), x.2 ≠ FP.nan := by
  intro x hx
  rcases mem_failingList hx with ⟨hf, rfl⟩ | ⟨hf, rfl⟩ | ⟨hf, rfl⟩
  · exact FP.not_nan_left (bGap_fail hf).1
  · exact FP.not_nan_left (cGap_fail hs hf).1
  · exact FP.not_nan_left (bufferGap_fail hs hf).1


/-- C1: the overall verdict is YES iff Rule B, Rule C and the Buffer rule
all pass; otherwise it is CLOSE iff the worst failing gap is at least
-0.05 (the boundary included, via the non-strict comparison), and NOT YET
otherwise. -/
theorem C1_verdict_policy (i : Inputs) :
    (verdict i = "YES" ↔
      passRuleB i = true ∧ passRuleC i = true ∧ passBuffer i = true) ∧
    (verdict i = "CLOSE" ↔ isYes i = false ∧
      FP.le (FP.fin (-CLOSE_BAND_FRACTION)) (worstGap i) = true) ∧
    (verdict i = "NOT YET" ↔ isYes i = false ∧
      FP.le (FP.fin (-CLOSE_BAND_FRACTION)) (worstGap i) = false) := by
  by_cases hy : isYes i = true
  · have h3 : passRuleB i = true ∧ passRuleC i = true ∧ passBuffer i = true := by
      have h := hy
      simp only [isYes, Bool.and_eq_true] at h
      exact ⟨h.1.1, h.1.2, h.2⟩
    simp [verdict, isClose, hy, h3]
  · have hy' : isYes i = false := by simpa using hy
    have h3 : ¬(passRuleB i = true ∧ passRuleC i = true ∧
        passBuffer i = true) := by
      rintro ⟨a, b, c⟩
      simp [isYes, a, b, c] at hy'
    by_cases hc : FP.le (FP.fin (-CLOSE_BAND_FRACTION)) (worstGap i) = true
    · simp [verdict, isClose, hy', hc, h3]
    · have hc' : FP.le (FP.fin (-CLOSE_BAND_FRACTION)) (worstGap i) = false := by
        simpa using hc
      simp [verdict, isClose, hy', hc', h3]

/-- Witness for C1: a configuration whose single failing gap is exactly
-0.05 classifies as CLOSE. -/
theorem C1_verdict_policy_witness :
    bufferGap closeBoundaryInput = FP.fin (-(1/20)) ∧
    verdict closeBoundaryInput = "CLOSE" := by
  have hB : passRuleB closeBoundaryInput = true := by
    norm_num [passRuleB, salaryVsNW, afterTaxSalary, closeBoundaryInput,
      FP.le, TARGET_SALARY_VS_NW]
  have hC : passRuleC closeBoundaryInput = true := by
    norm_num [passRuleC, afterTaxPortfolioReturn, closeBoundaryInput]
  have hQ : passBuffer closeBoundaryInput = false := by
    norm_num [passBuffer, bufferTarget, closeBoundaryInput,
      CASH_BUFFER_MONTHS]
  have hqG : bufferGap closeBoundaryInput = FP.fin (-(1/20)) := by
    norm_num [bufferGap, bufferTarget, closeBoundaryInput, FP.div,
      CASH_BUFFER_MONTHS]
  have hy : isYes closeBoundaryInput = false := by simp [isYes, hQ]
  have hw : worstGap closeBoundaryInput = FP.fin (-(1/20)) := by
    norm_num [worstGap, failingGaps, hB, hC, hQ, hqG, FP.min_inf_left,
      FP.min_fin_inf, FP.min_fin_fin]
  refine ⟨hqG, (C1_verdict_policy closeBoundaryInput).2.1.mpr ⟨hy, ?_⟩⟩
  norm_num [hw, FP.le_fin_fin, CLOSE_BAND_FRACTION]

/-- C2: the worked scenario — Rule B fails with gap -0.02, Rule C passes,
the buffer fails with gap -1/3 against a 90,000 target, the worst gap is
-1/3, the verdict is NOT YET, the driver is the cash buffer, and the next
step recommends holding 30,000 more in cash. -/
theorem C2_scenario_one :
    afterTaxSalary scenarioOneInput = 360000 ∧
    salaryVsNW scenarioOneInput = FP.fin (12/100) ∧
    passRuleB scenarioOneInput = false ∧
    bGap scenarioOneInput = FP.fin (-(2/100)) ∧
    afterTaxPortfolioReturn scenarioOneInput = 240000 ∧
    passRuleC scenarioOneInput = true ∧
    bufferTarget scenarioOneInput = 90000 ∧
    scenarioOneInput.cashOnHand = 60000 ∧
    passBuffer scenarioOneInput = false ∧
    bufferGap scenarioOneInput = FP.fin (-(1/3)) ∧
    worstGap scenarioOneInput = FP.fin (-(1/3)) ∧
    verdict scenarioOneInput = "NOT YET" ∧
    driver scenarioOneInput = "Insufficient cash buffer" ∧
    nextStep scenarioOneInput = NextStep.step "Hold more cash" (FP.fin 30000) := by
  have hB : passRuleB scenarioOneInput = false := by
    norm_num [passRuleB, salaryVsNW, afterTaxSalary, scenarioOneInput,
      FP.le, TARGET_SALARY_VS_NW]
  have hC : passRuleC scenarioOneInput = true := by
    norm_num [passRuleC, afterTaxPortfolioReturn, scenarioOneInput]
  have hQ : passBuffer scenarioOneInput = false := by
    norm_num [passBuffer, bufferTarget, scenarioOneInput, CASH_BUFFER_MONTHS]
  have hbG : bGap scenarioOneInput = FP.fin (-(2/100)) := by
    norm_num [bGap, salaryVsNW, afterTaxSalary, scenarioOneInput, FP.sub,
      FP.neg, FP.add, TARGET_SALARY_VS_NW]
  have hcG : cGap scenarioOneInput = FP.fin (1/3) := by
    norm_num [cGap, afterTaxPortfolioReturn, scenarioOneInput, FP.div]
  have hqG : bufferGap scenarioOneInput = FP.fin (-(1/3)) := by
    norm_num [bufferGap, bufferTarget, scenarioOneInput, FP.div,
      CASH_BUFFER_MONTHS]
  have hw : worstGap scenarioOneInput = FP.fin (-(1/3)) := by
    norm_num [worstGap, failingGaps, hB, hC, hQ, hbG, hqG, FP.min_inf_left,
      FP.min_fin_inf, FP.min_fin_fin]
  have hy : isYes scenarioOneInput = false := by simp [isYes, hB]
  have hclose : isClose scenarioOneInput = false := by
    norm_num [isClose, hy, hw, FP.le_fin_fin, CLOSE_BAND_FRACTION]
  have hv : verdict scenarioOneInput = "NOT YET" := by
    simp [verdict, hy, hclose]
  have hdrv : driver scenarioOneInput = "Insufficient cash buffer" := by
    norm_num [driver, driverCore, hB, hC, hQ, hbG, hcG, hqG, FP.le_fin_fin]
  have hDB : deltaNW_B scenarioOneInput = 600000 := by
    norm_num [deltaNW_B, neededNWforB, afterTaxSalary, scenarioOneInput,
      TARGET_SALARY_VS_NW]
  have hbs : bufferShort scenarioOneInput = 30000 := by
    norm_num [bufferShort, bufferTarget, scenarioOneInput,
      CASH_BUFFER_MONTHS]
  have hd : deltas scenarioOneInput =
      [("Grow net worth (Rule B)", FP.fin 600000),
       ("Hold more cash", FP.fin 30000)] := by
    simp [deltas, hB, hC, hQ, hDB, hbs]
  have hns : nextStep scenarioOneInput =
      NextStep.step "Hold more cash" (FP.fin 30000) := by
    simp only [nextStep, hd]
    norm_num [reduceBest, FP.le_fin_fin, pretty, FP.round_fin, FP.max0_fin]
  refine ⟨?_, ?_, hB, hbG, ?_, hC, ?_, rfl, hQ, hqG, hw, hv, hdrv, hns⟩
  · norm_num [afterTaxSalary, scenarioOneInput]
  · norm_num [salaryVsNW, afterTaxSalary, scenarioOneInput]
  · norm_num [afterTaxPortfolioReturn, scenarioOneInput]
  · norm_num [bufferTarget, scenarioOneInput, CASH_BUFFER_MONTHS]

/-- C4 (amended): a passing rule is never selected as the driver, all
passing rules contribute +Infinity to the worst gap, and for inputs with
spend > 0 replacing every passing rule's gap by +Infinity in the driver
comparisons leaves the driver unchanged.  (At spend = 0 a passing rule's
NaN gap can change the selection — see the counterexample.) -/
theorem C4_passing_gap_isolation (i : Inputs) :
    (passRuleB i = true → driver i ≠ "Salary too large vs net worth") ∧
    (passRuleC i = true →
      driver i ≠ "Spending too high vs portfolio + side income") ∧
    (passBuffer i = true → driver i ≠ "Insufficient cash buffer") ∧
    (isYes i = true → worstGap i = FP.inf) ∧
    (0 < i.spend → driver i = driverInf i) := by
  refine ⟨?_, ?_, ?_, ?_, fun hs => driver_eq_driverInf hs⟩
  · intro h
    simp only [driver, driverCore, h, Bool.not_true, Bool.false_and]
    split_ifs <;> first | contradiction | decide
  · intro h
    simp only [driver, driverCore, h, Bool.not_true, Bool.false_and]
    split_ifs <;> first | contradiction | decide
  · intro h
    simp only [driver, driverCore, h, Bool.not_true, Bool.false_and]
    split_ifs <;> first | contradiction | decide
  · intro h
    have h' := h
    simp only [isYes, Bool.and_eq_true] at h'
    simp [worstGap, failingGaps, h'.1.1, h'.1.2, h'.2, FP.min_inf_left]

/-- Witness for C4 at a concrete spend-positive input. -/
theorem C4_passing_gap_isolation_witness :
    0 < c4WitnessInput.spend ∧
    driver c4WitnessInput = driverInf c4WitnessInput ∧
    passRuleC c4WitnessInput = true ∧
    driver c4WitnessInput ≠ "Spending too high vs portfolio + side income" := by
  have hs : 0 < c4WitnessInput.spend := by norm_num [c4WitnessInput]
  have hC : passRuleC c4WitnessInput = true := by
    norm_num [passRuleC, afterTaxPortfolioReturn, c4WitnessInput]
  have h := C4_passing_gap_isolation c4WitnessInput
  exact ⟨hs, h.2.2.2.2 hs, hC, h.2.1 hC⟩

/-- C4 counterexample: at spend = 0, Rule C passes with a NaN gap and that
gap does affect the selection — the code returns "Multiple factors" even
though treating every passing rule's gap as +Infinity would select the
failing Rule B. -/
theorem C4_passing_gap_counterexample :
    passRuleC nanGapInput = true ∧ passRuleB nanGapInput = false ∧
    cGap nanGapInput = FP.nan ∧
    driver nanGapInput = "Multiple factors" ∧
    driverInf nanGapInput = "Salary too large vs net worth" ∧
    driver nanGapInput ≠ driverInf nanGapInput := by
  have hsv : salaryVsNW nanGapInput = FP.inf := by
    norm_num [salaryVsNW, nanGapInput]
  have hB : passRuleB nanGapInput = false := by
    simp [passRuleB, hsv, FP.le]
  have hC : passRuleC nanGapInput = true := by
    norm_num [passRuleC, afterTaxPortfolioReturn, nanGapInput]
  have hQ : passBuffer nanGapInput = true := by
    norm_num [passBuffer, bufferTarget, nanGapInput, CASH_BUFFER_MONTHS]
  have hbG : bGap nanGapInput = FP.ninf := by
    simp [bGap, hsv, FP.sub, FP.neg, FP.add]
  have hcG : cGap nanGapInput = FP.nan := by
    norm_num [cGap, afterTaxPortfolioReturn, nanGapInput, FP.div]
  have hqG : bufferGap nanGapInput = FP.nan := by
    norm_num [bufferGap, bufferTarget, nanGapInput, FP.div,
      CASH_BUFFER_MONTHS]
  have hdrv : driver nanGapInput = "Multiple factors" := by
    simp [driver, driverCore, hB, hC, hQ, hbG, hcG, hqG, FP.le]
  have hinf : driverInf nanGapInput = "Salary too large vs net worth" := by
    simp [driverInf, driverCore, hB, hC, hQ, hbG, FP.le]
  refine ⟨hC, hB, hcG, hdrv, hinf, ?_⟩
  rw [hdrv, hinf]
  decide

/-- C5 (amended): with netWorth = 0, positive salary and spend ≠ 0,
salaryVsNW is +Infinity, Rule B fails with gap -Infinity, and Rule B is
the top driver.  (With spend = 0 the other gaps can be NaN and the driver
chain can fall through — see the counterexample.) -/
theorem C5_zero_netWorth_driver (i : Inputs) (h0 : i.netWorth = 0)
    (_hsal : 0 < i.salary) (hs : i.spend ≠ 0) :
    salaryVsNW i = FP.inf ∧ passRuleB i = false ∧ bGap i = FP.ninf ∧
    driver i = "Salary too large vs net worth" := by
  have hnw : ¬(0 < i.netWorth) := by
    rw [h0]
    exact lt_irrefl 0
  have hsv : salaryVsNW i = FP.inf := by simp [salaryVsNW, hnw]
  have hpB : passRuleB i = false := by simp [passRuleB, hsv, FP.le]
  have hbG : bGap i = FP.ninf := by
    simp [bGap, hsv, FP.sub, FP.neg, FP.add]
  have hc : cGap i =
      FP.fin ((afterTaxPortfolioReturn i + i.sideIncome - i.spend) / i.spend) := by
    simp [cGap, FP.div, hs]
  have hbtne : bufferTarget i ≠ 0 := by
    intro hb
    apply hs
    have hhalf : bufferTarget i = i.spend / 2 := by
      unfold bufferTarget CASH_BUFFER_MONTHS
      ring
    rw [hhalf] at hb
    linarith
  have hq : bufferGap i =
      FP.fin ((i.cashOnHand - bufferTarget i) / bufferTarget i) := by
    simp [bufferGap, FP.div, hbtne]
  refine ⟨hsv, hpB, hbG, ?_⟩
  simp [driver, driverCore, hpB, hbG, hc, hq, FP.le]

/-- Witness for C5 at a concrete input. -/
theorem C5_zero_netWorth_driver_witness :
    salaryVsNW c5WitnessInput = FP.inf ∧ passRuleB c5WitnessInput = false ∧
    bGap c5WitnessInput = FP.ninf ∧
    driver c5WitnessInput = "Salary too large vs net worth" :=
  C5_zero_netWorth_driver c5WitnessInput rfl (by norm_num [c5WitnessInput])
    (by norm_num [c5WitnessInput])

/-- C5 counterexample: with netWorth = 0 and salary > 0 but spend = 0, the
other two rules pass with NaN gaps and the failing Rule B is NOT the top
driver — the chain falls through to "Multiple factors". -/
theorem C5_zero_netWorth_counterexample :
    c5Degenerate.netWorth = 0 ∧ 0 < c5Degenerate.salary ∧
    passRuleB c5Degenerate = false ∧
    driver c5Degenerate = "Multiple factors" ∧
    driver c5Degenerate ≠ "Salary too large vs net worth" := by
  have hsv : salaryVsNW c5Degenerate = FP.inf := by
    norm_num [salaryVsNW, c5Degenerate]
  have hB : passRuleB c5Degenerate = false := by
    simp [passRuleB, hsv, FP.le]
  have hC : passRuleC c5Degenerate = true := by
    norm_num [passRuleC, afterTaxPortfolioReturn, c5Degenerate]
  have hQ : passBuffer c5Degenerate = true := by
    norm_num [passBuffer, bufferTarget, c5Degenerate, CASH_BUFFER_MONTHS]
  have hbG : bGap c5Degenerate = FP.ninf := by
    simp [bGap, hsv, FP.sub, FP.neg, FP.add]
  have hcG : cGap c5Degenerate = FP.nan := by
    norm_num [cGap, afterTaxPortfolioReturn, c5Degenerate, FP.div]
  have hqG : bufferGap c5Degenerate = FP.nan := by
    norm_num [bufferGap, bufferTarget, c5Degenerate, FP.div,
      CASH_BUFFER_MONTHS]
  have hdrv : driver c5Degenerate = "Multiple factors" := by
    simp [driver, driverCore, hB, hC, hQ, hbG, hcG, hqG, FP.le]
  refine ⟨rfl, by norm_num [c5Degenerate], hB, hdrv, ?_⟩
  rw [hdrv]
  decide

/-- C3: the candidate list contains levers only for failing rules; it is
empty iff all three rules pass, in which case the next step is the fixed
coasting message; otherwise the selected candidate has minimal required
magnitude among all candidates and every earlier-listed candidate has a
strictly larger magnitude (ties go to the first-listed candidate, the
list being ordered Rule B lever, Rule C's three levers, Buffer lever). -/
theorem C3_candidate_selection (i : Inputs) :
    (∀ x ∈ deltas i,
      (x.1 = "Grow net worth (Rule B)" ∨ x.1 = "Add side income" ∨
       x.1 = "Cut spending" ∨ x.1 = "Grow net worth (Rule C)" ∨
       x.1 = "Hold more cash") ∧
      (x.1 = "Grow net worth (Rule B)" → passRuleB i = false) ∧
      ((x.1 = "Add side income" ∨ x.1 = "Cut spending" ∨
        x.1 = "Grow net worth (Rule C)") → passRuleC i = false) ∧
      (x.1 = "Hold more cash" → passBuffer i = false)) ∧
    (deltas i = [] ↔ isYes i = true) ∧
    (nextStep i = NextStep.coastMsg ↔ isYes i = true) ∧
    (∀ sel, bestLever i = some sel →
      sel ∈ deltas i ∧ (∀ x ∈ deltas i, FP.le sel.2 x.2 = true) ∧
      ∃ pre post, deltas i = pre ++ sel :: post ∧
        ∀ x ∈ pre, FP.le x.2 sel.2 = false) := by
  have hempty : deltas i = [] ↔ isYes i = true := by
    constructor
    · intro h
      cases hB : passRuleB i <;> cases hc : passRuleC i <;>
        cases hq : passBuffer i <;> simp [deltas, hB, hc, hq] at h <;>
        simp [isYes, hB, hc, hq]
    · intro h
      have h' := h
      simp only [isYes, Bool.and_eq_true] at h'
      simp [deltas, h'.1.1, h'.1.2, h'.2]
  refine ⟨?_, hempty, ?_, ?_⟩
  · intro x hx
    rcases mem_deltas_cases hx with ⟨hf, rfl⟩ | ⟨hf, rfl | rfl | rfl⟩ |
        ⟨hf, rfl⟩ <;>
      refine ⟨by simp, ?_, ?_, ?_⟩ <;> intro hlab <;>
      first | exact hf | simp at hlab
  · constructor
    · intro h
      cases hd : deltas i with
      | nil => exact hempty.mp hd
      | cons d ds =>
          rw [nextStep] at h
          rw [hd] at h
          simp at h
    · intro h
      have hd : deltas i = [] := hempty.mpr h
      rw [nextStep, hd]
  · intro sel hsel
    cases hd : deltas i with
    | nil =>
        rw [bestLever, hd] at hsel
        simp at hsel
    | cons d ds =>
        have hnn : ∀ x ∈ d :: ds, x.2 ≠ FP.nan := by
          rw [← hd]
          exact deltas_not_nan i
        have hsel' : sel = reduceBest d ds := by
          rw [bestLever, hd] at hsel
          exact (Option.some.inj hsel).symm
        subst hsel'
        exact ⟨reduceBest_mem d ds, reduceBest_le_all d ds hnn,
          reduceBest_first d ds hnn⟩

/-- Witness for C3 at a concrete input: the cheaper of the two candidate
levers is selected. -/
theorem C3_candidate_selection_witness :
    bestLever c3WitnessInput = some ("Hold more cash", FP.fin 30000) ∧
    (∀ x ∈ deltas c3WitnessInput, FP.le (FP.fin 30000) x.2 = true) := by
  have hB : passRuleB c3WitnessInput = false := by
    norm_num [passRuleB, salaryVsNW, afterTaxSalary, c3WitnessInput, FP.le,
      TARGET_SALARY_VS_NW]
  have hC : passRuleC c3WitnessInput = true := by
    norm_num [passRuleC, afterTaxPortfolioReturn, c3WitnessInput]
  have hQ : passBuffer c3WitnessInput = false := by
    norm_num [passBuffer, bufferTarget, c3WitnessInput, CASH_BUFFER_MONTHS]
  have hDB : deltaNW_B c3WitnessInput = 1000000 := by
    norm_num [deltaNW_B, neededNWforB, afterTaxSalary, c3WitnessInput,
      TARGET_SALARY_VS_NW]
  have hbs : bufferShort c3WitnessInput = 30000 := by
    norm_num [bufferShort, bufferTarget, c3WitnessInput, CASH_BUFFER_MONTHS]
  have hd : deltas c3WitnessInput =
      [("Grow net worth (Rule B)", FP.fin 1000000),
       ("Hold more cash", FP.fin 30000)] := by
    simp [deltas, hB, hC, hQ, hDB, hbs]
  have hbl : bestLever c3WitnessInput =
      some ("Hold more cash", FP.fin 30000) := by
    rw [bestLever, hd]
    norm_num [reduceBest, FP.le_fin_fin]
  have h := (C3_candidate_selection c3WitnessInput).2.2.2 _ hbl
  exact ⟨hbl, by simpa using h.2.1⟩

/-- C6: the evaluator is total — in the embedding every input produces
well-defined outputs (exception-freedom is expressed by totality of the
model); the verdict and driver always take one of the documented values,
and the degenerate inputs netWorth = 0 / spend = 0 propagate the IEEE
special values deterministically. -/
theorem C6_totality (i : Inputs) :
    (verdict i = "YES" ∨ verdict i = "CLOSE" ∨ verdict i = "NOT YET") ∧
    (driver i = "Salary too large vs net worth" ∨
     driver i = "Spending too high vs portfolio + side income" ∨
     driver i = "Insufficient cash buffer" ∨
     driver i = "You’re good" ∨ driver i = "Multiple factors") ∧
    (i.netWorth = 0 → salaryVsNW i = FP.inf) ∧
    (i.spend = 0 →
      (0 < afterTaxPortfolioReturn i + i.sideIncome → cGap i = FP.inf) ∧
      (afterTaxPortfolioReturn i + i.sideIncome = 0 → cGap i = FP.nan) ∧
      (afterTaxPortfolioReturn i + i.sideIncome < 0 → cGap i = FP.ninf)) := by
  refine ⟨?_, ?_, ?_, ?_⟩
  · unfold verdict
    split_ifs <;> simp
  · unfold driver driverCore
    split_ifs <;> simp
  · intro h
    have hnw : ¬(0 < i.netWorth) := by
      rw [h]
      exact lt_irrefl 0
    simp [salaryVsNW, hnw]
  · intro h
    refine ⟨fun hpos => ?_, fun hzero => ?_, fun hneg => ?_⟩
    · simp [cGap, FP.div, h, hpos]
    · simp [cGap, FP.div, h, hzero]
    · simp [cGap, FP.div, h, hneg, hneg.not_lt, asymm hneg]
/-- Witness for C6 at a degenerate input with netWorth = 0 and spend = 0. -/
theorem C6_totality_witness :
    salaryVsNW c6WitnessInput = FP.inf ∧ cGap c6WitnessInput = FP.inf ∧
    (verdict c6WitnessInput = "YES" ∨ verdict c6WitnessInput = "CLOSE" ∨
     verdict c6WitnessInput = "NOT YET") := by
  have h := C6_totality c6WitnessInput
  refine ⟨h.2.2.1 rfl, ?_, h.1⟩
  have hcov : 0 < afterTaxPortfolioReturn c6WitnessInput +
      c6WitnessInput.sideIncome := by
    norm_num [afterTaxPortfolioReturn, c6WitnessInput]
  exact (h.2.2.2 rfl).1 hcov

/-- C7: increasing netWorth (everything else fixed) never flips Rule B
from pass to fail and never increases Rule B's required net-worth
increase. -/
theorem C7_netWorth_monotonicity (i : Inputs) (nw : ℚ)
    (h : i.netWorth < nw) :
    (passRuleB i = true → passRuleB { i with netWorth := nw } = true) ∧
    deltaNW_B { i with netWorth := nw } ≤ deltaNW_B i := by
  constructor
  · intro hp
    by_cases hnw : 0 < i.netWorth
    · have hs : afterTaxSalary i / i.netWorth ≤ TARGET_SALARY_VS_NW := by
        simpa [passRuleB, salaryVsNW, hnw, FP.le] using hp
      have hnw' : (0:ℚ) < nw := lt_trans hnw h
      have hle : afterTaxSalary i ≤ TARGET_SALARY_VS_NW * i.netWorth := by
        rwa [div_le_iff hnw] at hs
      have hT : (0:ℚ) < TARGET_SALARY_VS_NW := by
        norm_num [TARGET_SALARY_VS_NW]
      have hle' : afterTaxSalary i ≤ TARGET_SALARY_VS_NW * nw := by
        have := mul_le_mul_of_nonneg_left (le_of_lt h) (le_of_lt hT)
        linarith
      have hfin : salaryVsNW { i with netWorth := nw } =
          FP.fin (afterTaxSalary i / nw) := by
        simp [salaryVsNW, afterTaxSalary, hnw']
      rw [passRuleB, hfin]
      simp only [FP.le, decide_eq_true_eq]
      rw [div_le_iff hnw']
      linarith
    · simp [passRuleB, salaryVsNW, hnw, FP.le] at hp
  · have hneed : neededNWforB { i with netWorth := nw } = neededNWforB i := by
      simp [neededNWforB, afterTaxSalary]
    simp only [deltaNW_B, hneed]
    apply max_le_max le_rfl
    linarith

/-- Witness for C7 at a concrete input. -/
theorem C7_netWorth_monotonicity_witness :
    passRuleB { c7WitnessInput with netWorth := 5000000 } = true ∧
    deltaNW_B { c7WitnessInput with netWorth := 5000000 } ≤
      deltaNW_B c7WitnessInput := by
  have h := C7_netWorth_monotonicity c7WitnessInput 5000000
    (by norm_num [c7WitnessInput])
  refine ⟨h.1 ?_, h.2⟩
  norm_num [passRuleB, salaryVsNW, afterTaxSalary, c7WitnessInput, FP.le,
    TARGET_SALARY_VS_NW]

theorem pretty_fin (q : ℚ) :
    pretty (FP.fin q) = FP.fin ((max 0 ⌊q + 1/2⌋ : ℤ) : ℚ) := by
  rw [pretty, FP.round_fin, FP.max0_fin]
  split_ifs with h0
  · have h0' : (0:ℤ) ≤ ⌊q + 1/2⌋ := by exact_mod_cast h0
    rw [max_eq_right h0']
  · have h0' : ⌊q + 1/2⌋ ≤ 0 := by
      by_contra hc
      push_neg at hc
      exact h0 (by exact_mod_cast le_of_lt hc)
    rw [max_eq_left h0']
    simp

theorem pretty_nonneg {v : FP} (h : v ≠ FP.nan) :
    FP.le (FP.fin 0) (pretty v) = true := by
  cases v with
  | fin q =>
      rw [pretty_fin]
      simp only [FP.le_fin_fin, decide_eq_true_eq]
      exact_mod_cast le_max_left 0 ⌊q + 1/2⌋
  | inf =>
      have h2 : FP.max0 FP.inf = FP.inf := by
        rw [FP.max0]
        norm_num [FP.le]
        exact fun hc => FP.noConfusion hc
      show FP.le (FP.fin 0) (FP.max0 (FP.round FP.inf)) = true
      rw [FP.round, h2]
      rfl
  | ninf =>
      have h2 : FP.max0 FP.ninf = FP.fin 0 := by
        rw [FP.max0]
        norm_num [FP.le]
        exact fun hc => FP.noConfusion hc
      show FP.le (FP.fin 0) (FP.max0 (FP.round FP.ninf)) = true
      rw [FP.round, h2, FP.le_fin_fin]
      norm_num
  | nan => exact absurd rfl h

/-- C8 (amended): the displayed amount is Math.round (round to nearest,
halves up) of the selected lever's magnitude, floored at 0 — it is never
negative and, for a finite magnitude v, equals max(0, round(v)), which is
at least v - 1/2; it is NOT a ceiling and can be strictly less than v
(see the counterexample). -/
theorem C8_display_amount (i : Inputs) (sel : String × FP)
    (h : bestLever i = some sel) :
    nextStep i = NextStep.step sel.1 (pretty sel.2) ∧
    FP.le (FP.fin 0) (pretty sel.2) = true ∧
    ∀ v : ℚ, sel.2 = FP.fin v →
      pretty sel.2 = FP.fin ((max 0 ⌊v + 1/2⌋ : ℤ) : ℚ) ∧
      (0:ℚ) ≤ ((max 0 ⌊v + 1/2⌋ : ℤ) : ℚ) ∧
      v - 1/2 ≤ ((max 0 ⌊v + 1/2⌋ : ℤ) : ℚ) := by
  cases hd : deltas i with
  | nil =>
      rw [bestLever, hd] at h
      simp at h
  | cons d ds =>
      have hsel : sel = reduceBest d ds := by
        rw [bestLever, hd] at h
        exact (Option.some.inj h).symm
      have hmem : reduceBest d ds ∈ deltas i := by
        rw [hd]
        exact reduceBest_mem d ds
      have hnn : sel.2 ≠ FP.nan := by
        rw [hsel]
        exact deltas_not_nan i _ hmem
      refine ⟨?_, pretty_nonneg hnn, ?_⟩
      · simp only [nextStep, hd]
        rw [hsel]
      · intro v hv
        rw [hv, pretty_fin]
        refine ⟨rfl, ?_, ?_⟩
        · exact_mod_cast le_max_left 0 ⌊v + 1/2⌋
        · have hfl : v + 1/2 - 1 < ((⌊v + 1/2⌋ : ℤ) : ℚ) :=
            Int.sub_one_lt_floor (v + 1/2)
          have hle : ((⌊v + 1/2⌋ : ℤ) : ℚ) ≤ ((max 0 ⌊v + 1/2⌋ : ℤ) : ℚ) := by
            exact_mod_cast le_max_right 0 ⌊v + 1/2⌋
          linarith

/-- Witness for C8 at the worked scenario. -/
theorem C8_display_amount_witness :
    nextStep scenarioOneInput =
      NextStep.step "Hold more cash" (pretty (FP.fin 30000)) ∧
    FP.le (FP.fin 0) (pretty (FP.fin 30000)) = true := by
  have hB : passRuleB scenarioOneInput = false := by
    norm_num [passRuleB, salaryVsNW, afterTaxSalary, scenarioOneInput,
      FP.le, TARGET_SALARY_VS_NW]
  have hC : passRuleC scenarioOneInput = true := by
    norm_num [passRuleC, afterTaxPortfolioReturn, scenarioOneInput]
  have hQ : passBuffer scenarioOneInput = false := by
    norm_num [passBuffer, bufferTarget, scenarioOneInput, CASH_BUFFER_MONTHS]
  have hDB : deltaNW_B scenarioOneInput = 600000 := by
    norm_num [deltaNW_B, neededNWforB, afterTaxSalary, scenarioOneInput,
      TARGET_SALARY_VS_NW]
  have hbs : bufferShort scenarioOneInput = 30000 := by
    norm_num [bufferShort, bufferTarget, scenarioOneInput,
      CASH_BUFFER_MONTHS]
  have hd : deltas scenarioOneInput =
      [("Grow net worth (Rule B)", FP.fin 600000),
       ("Hold more cash", FP.fin 30000)] := by
    simp [deltas, hB, hC, hQ, hDB, hbs]
  have hbl : bestLever scenarioOneInput =
      some ("Hold more cash", FP.fin 30000) := by
    rw [bestLever, hd]
    norm_num [reduceBest, FP.le_fin_fin]
  have h := C8_display_amount scenarioOneInput _ hbl
  exact ⟨h.1, h.2.1⟩

/-- C8 counterexample: a configuration whose selected lever requires
exactly 0.4 displays $0 — strictly less than the exact magnitude, so the
displayed amount is not a ceiling and can undershoot. -/
theorem C8_display_amount_counterexample :
    bestLever c8CexInput = some ("Hold more cash", FP.fin (2/5)) ∧
    nextStep c8CexInput = NextStep.step "Hold more cash" (FP.fin 0) ∧
    ¬((2:ℚ)/5 ≤ 0) := by
  have hB : passRuleB c8CexInput = true := by
    norm_num [passRuleB, salaryVsNW, afterTaxSalary, c8CexInput, FP.le,
      TARGET_SALARY_VS_NW]
  have hC : passRuleC c8CexInput = true := by
    norm_num [passRuleC, afterTaxPortfolioReturn, c8CexInput]
  have hQ : passBuffer c8CexInput = false := by
    norm_num [passBuffer, bufferTarget, c8CexInput, CASH_BUFFER_MONTHS]
  have hbs : bufferShort c8CexInput = 2/5 := by
    norm_num [bufferShort, bufferTarget, c8CexInput, CASH_BUFFER_MONTHS]
  have hd : deltas c8CexInput = [("Hold more cash", FP.fin (2/5))] := by
    simp [deltas, hB, hC, hQ, hbs]
  refine ⟨by rw [bestLever, hd]; simp [reduceBest], ?_, by norm_num⟩
  simp only [nextStep, hd, reduceBest]
  rw [pretty_fin]
  norm_num

/-- C9: the sensitivity scanner returns exactly 5 results in ascending
rate order; each scenario recomputes only the after-tax portfolio return,
reuses the evaluator's Rule B outcome and gap and Buffer outcome and gap
unchanged, recomputes Rule C's outcome and gap with the scenario return,
applies the same YES/CLOSE policy, and reports
coverage = (scenarioReturn + sideIncome) / spend. -/
theorem C9_sensitivity_scan (i : Inputs) :
    (sensitivity i).length = 5 ∧
    (sensitivity i).map (fun s => s.r) = returnScenarios ∧
    List.Chain' (fun a b => a < b) ((sensitivity i).map (fun s => s.r)) ∧
    ∀ r : ℚ,
      (verdictForR i r).yes =
        (passRuleB i &&
         decide (i.spend ≤ i.netWorth * r * (1 - i.investTaxRate) +
           i.sideIncome) && passBuffer i) ∧
      (verdictForR i r).close =
        (!(verdictForR i r).yes &&
         FP.le (FP.fin (-CLOSE_BAND_FRACTION))
           (([if passRuleB i then FP.inf else bGap i,
              if decide (i.spend ≤ i.netWorth * r * (1 - i.investTaxRate) +
                  i.sideIncome) then FP.inf
              else FP.div (FP.fin (i.netWorth * r * (1 - i.investTaxRate) +
                  i.sideIncome - i.spend)) (FP.fin i.spend),
              if passBuffer i then FP.inf else bufferGap i]).foldl
             FP.min FP.inf)) ∧
      (verdictForR i r).coverage =
        FP.div (FP.fin (i.netWorth * r * (1 - i.investTaxRate) +
          i.sideIncome)) (FP.fin i.spend) := by
  refine ⟨rfl, rfl, ?_, fun r => ⟨rfl, rfl, rfl⟩⟩
  have hmap : (sensitivity i).map (fun s => s.r) = returnScenarios := rfl
  rw [hmap]
  norm_num [returnScenarios, List.chain'_cons, List.chain'_singleton]

/-- Witness for C9 at a concrete input: 5 scenarios, and the 8% scenario
passes all rules. -/
theorem C9_sensitivity_scan_witness :
    (sensitivity c9WitnessInput).length = 5 ∧
    (verdictForR c9WitnessInput (8/100)).yes = true := by
  have h := C9_sensitivity_scan c9WitnessInput
  refine ⟨h.1, ?_⟩
  rw [(h.2.2.2 (8/100)).1]
  norm_num [passRuleB, salaryVsNW, afterTaxSalary, c9WitnessInput, FP.le,
    TARGET_SALARY_VS_NW, passBuffer, bufferTarget, CASH_BUFFER_MONTHS]

/-- C10: for every input with spend > 0 the driver equals the
specification-side selection (the first failing rule attaining the
minimal gap, ties in order Rule B, Rule C, Buffer), is the all-good label
exactly when all rules pass, is the label of a minimal-gap failing rule
otherwise, and the fallback label "Multiple factors" is unreachable. -/
theorem C10_driver_failing_label (i : Inputs) (hs : 0 < i.spend) :
    driver i = driverSpec i ∧
    (isYes i = true ↔ driver i = "You’re good") ∧
    (isYes i = false →
      ∃ x ∈ failingList (passRuleB i) (passRuleC i) (passBuffer i)
          (bGap i) (cGap i) (bufferGap i),
        driver i = x.1 ∧
        ∀ y ∈ failingList (passRuleB i) (passRuleC i) (passBuffer i)
            (bGap i) (cGap i) (bufferGap i), FP.le x.2 y.2 = true) ∧
    driver i ≠ "Multiple factors" := by
  have heq := driver_eq_driverSpec hs
  by_cases hy : isYes i = true
  · have h' := hy
    simp only [isYes, Bool.and_eq_true] at h'
    have hgood : driverSpec i = "You’re good" := by
      simp [driverSpec, driverSpecCore, failingList, h'.1.1, h'.1.2, h'.2]
    refine ⟨heq, ⟨fun _ => by rw [heq, hgood], fun _ => hy⟩,
      fun hyf => absurd hy (by simp [hyf]), ?_⟩
    rw [heq, hgood]
    simp
  · have hy' : isYes i = false := by simpa using hy
    cases hfl : failingList (passRuleB i) (passRuleC i) (passBuffer i)
        (bGap i) (cGap i) (bufferGap i) with
    | nil =>
        exfalso
        revert hfl
        cases hB : passRuleB i <;> cases hc : passRuleC i <;>
          cases hq : passBuffer i <;> simp [failingList] <;>
          simp [isYes, hB, hc, hq] at hy'
    | cons d ds =>
        have hnn : ∀ y ∈ d :: ds, y.2 ≠ FP.nan := by
          rw [← hfl]
          exact failingList_not_nan hs
        have hspec : driverSpec i = (reduceBest d ds).1 := by
          simp only [driverSpec, driverSpecCore, hfl]
        have hmem : reduceBest d ds ∈ failingList (passRuleB i)
            (passRuleC i) (passBuffer i) (bGap i) (cGap i) (bufferGap i) := by
          rw [hfl]
          exact reduceBest_mem d ds
        have hlab := mem_failingList hmem
        refine ⟨heq, ⟨fun hyy => absurd hyy (by simp [hy']),
          fun hgood => ?_⟩,
          fun _ => ⟨reduceBest d ds, reduceBest_mem d ds,
            by rw [heq, hspec], reduceBest_le_all d ds hnn⟩, ?_⟩
        · exfalso
          rw [heq, hspec] at hgood
          rcases hlab with ⟨_, hx⟩ | ⟨_, hx⟩ | ⟨_, hx⟩ <;>
            rw [hx] at hgood <;> simp at hgood
        · rw [heq, hspec]
          rcases hlab with ⟨_, hx⟩ | ⟨_, hx⟩ | ⟨_, hx⟩ <;> rw [hx] <;> simp

/-- Witness for C10 at a concrete input where all three rules fail. -/
theorem C10_driver_failing_label_witness :
    driver c10WitnessInput = driverSpec c10WitnessInput ∧
    driver c10WitnessInput ≠ "Multiple factors" := by
  have h := C10_driver_failing_label c10WitnessInput
    (by norm_num [c10WitnessInput])
  exact ⟨h.1, h.2.2.2⟩
